import Mathlib

/-!
Verification development for the inventory forecasting app
(`src/main.jsx`, current revision, and the earlier revision of the same
file).  The two components under study are:

* `sanitizeSkus` (src/main.jsx lines 88-117): coercion of arbitrary
  external input into product records;
* `generateForecast` (src/main.jsx lines 792-828, earlier revision lines
  499-535) and the derived dashboard analytics (lines 831-968).

Modelling conventions (shallow embedding):

* JavaScript numbers are modelled by `JsNum` (NaN, ±Infinity, or a finite
  value represented exactly as a rational) at the sanitation boundary,
  and by plain rationals `ℚ` inside the engine, which per the data model
  only ever sees finite values.  All engine arithmetic (`max`, `+`, `-`,
  `*`, `/`, comparisons) is exact on the rationals involved; no claim
  below depends on binary floating-point rounding, with the single
  exception of `toFixed(1)` in the risk tiering, which is modelled
  explicitly (see `monthsTenths`).
* Calendar dates are modelled as epoch day numbers (`ℤ`): `new
  Date().toISOString().split('T')[0]` equality of two dates is equality
  of their day numbers, and `setDate(getDate() + n)` is `+ n`.  The
  Gregorian month (`getMonth() : 0..11`) and year (`getFullYear()`) of a
  day number are ambient-environment inputs of the program (they depend
  on the wall clock and time zone), so the engine is parameterised by a
  `Calendar` providing them; every theorem quantifies over the calendar.
* `Date.now()` and the current instant are explicit parameters
  (`nowMs`, `today`).
-/

/-- A JavaScript number: NaN, +Infinity, -Infinity, or a finite value
(represented exactly). -/
inductive JsNum where
  | nan : JsNum
  | inf : JsNum
  | ninf : JsNum
  | fin : ℚ → JsNum
deriving DecidableEq, Repr

/-- `Number.isFinite`. -/
def JsNum.isFinite : JsNum → Bool
  | .fin _ => true
  | _ => false

/-- Finite and `>= 0` (the property the spec asserts of sanitized numeric
fields).  JS `x >= 0` is false for NaN and -Infinity, true for +Infinity,
but +Infinity is not finite. -/
def JsNum.finNonneg : JsNum → Bool
  | .fin q => decide (0 ≤ q)
  | _ => false

/-- `Number.isFinite(x) && x >= 0 ? x : 0` — the clamp the sanitizer
applies to `unitCost` (src/main.jsx line 97). -/
def JsNum.clampFiniteNonneg : JsNum → JsNum
  | .fin q => if 0 ≤ q then .fin q else .fin 0
  | _ => .fin 0

/-- JS number-to-string conversion, used only for the default product
name `商品 #${id}` (src/main.jsx line 94).  The exact digit string JS
would print is immaterial to every claim (the name is cosmetic), so the
finite case prints the rational directly. -/
def JsNum.toDisplay : JsNum → String
  | .nan => "NaN"
  | .inf => "Infinity"
  | .ninf => "-Infinity"
  | .fin q => toString q

/-- Raw (untrusted) purchase-order record, as seen by `sanitizeSkus`.
`none` in a field models a missing/undefined/null field; a present field
carries the value's JS coercion (`Number(...)` for numeric fields,
`String(...)` for string fields, which always succeed on any JS value). -/
structure RawPo where
  id : Option JsNum
  poNumber : Option String
  orderDate : Option String
  qty : Option JsNum
  prodDays : Option JsNum
  leg1Mode : Option String
  leg1Days : Option JsNum
  leg2Mode : Option String
  leg2Days : Option JsNum
  leg3Mode : Option String
  leg3Days : Option JsNum
  status : Option String
deriving DecidableEq, Repr

/-- Raw (untrusted) product record.  `monthlySales = none` models a
non-array value (the `Array.isArray` check on line 98), and a `none`
entry inside the list models a hole/undefined entry (the `?? 0` on line
99).  Likewise for `pos` (line 100), whose `none` entries are the falsy
entries removed by `filter(Boolean)` (line 101). -/
structure RawSku where
  id : Option JsNum
  name : Option String
  currentStock : Option JsNum
  unitCost : Option JsNum
  monthlySales : Option (List (Option JsNum))
  pos : Option (List (Option RawPo))
deriving DecidableEq, Repr

/-- Sanitized purchase order (output shape of lines 101-114). -/
structure SPo where
  id : JsNum
  poNumber : String
  orderDate : String
  qty : JsNum
  prodDays : JsNum
  leg1Mode : String
  leg1Days : JsNum
  leg2Mode : String
  leg2Days : JsNum
  leg3Mode : String
  leg3Days : JsNum
  status : String
deriving DecidableEq, Repr

/-- Sanitized product (output shape of line 115). -/
structure SSku where
  id : JsNum
  name : String
  currentStock : JsNum
  unitCost : JsNum
  monthlySales : List JsNum
  pos : List SPo
deriving DecidableEq, Repr

/-- `['sea', 'air', 'rail']` (lines 107, 109, 111). -/
def modeList : List String := ["sea", "air", "rail"]

/-- The PO status enumeration (line 113). -/
def statusList : List String :=
  ["pre_order", "ordered", "cancelled", "in_production", "prod_complete",
   "leg1_shipped", "leg1_arrived", "leg2_shipped", "leg2_arrived",
   "inspecting", "picking", "bonded_warehouse", "pending_shelving", "shelved"]

/-- `['sea','air','rail'].includes(m) ? m : 'sea'` — `includes` is false
on a missing field. -/
def sanitizeMode : Option String → String
  | some m => if m ∈ modeList then m else "sea"
  | none => "sea"

/-- `statusList.includes(s) ? s : 'ordered'`. -/
def sanitizeStatus : Option String → String
  | some s => if s ∈ statusList then s else "ordered"
  | none => "ordered"

/-- `String(x).slice(0, 10)` on the order date (line 104). -/
def slice10 (s : String) : String := ⟨s.data.take 10⟩

/-- `Number.isFinite(Number(x)) ? Number(x) : fallback` — the id
coercion used on lines 93 and 102 (`Number(undefined)` is NaN, hence a
missing field falls back). -/
def sanitizeId (fallback : ℚ) : Option JsNum → JsNum
  | some (.fin q) => .fin q
  | _ => .fin fallback

/-- Lines 101-114: sanitize one raw PO.  `nowMs` is `Date.now()` (line
102), `todayStr` is `new Date().toISOString().split('T')[0]` (line 104).
`Number(po.id)` of a missing field is NaN, hence not finite. -/
def sanitizePo (nowMs : ℚ) (todayStr : String) (po : RawPo) : SPo where
  id := sanitizeId nowMs po.id
  poNumber := po.poNumber.getD ""
  orderDate := slice10 (po.orderDate.getD todayStr)
  qty := po.qty.getD (.fin 0)
  prodDays := po.prodDays.getD (.fin 0)
  leg1Mode := sanitizeMode po.leg1Mode
  leg1Days := po.leg1Days.getD (.fin 0)
  leg2Mode := sanitizeMode po.leg2Mode
  leg2Days := po.leg2Days.getD (.fin 0)
  leg3Mode := sanitizeMode po.leg3Mode
  leg3Days := po.leg3Days.getD (.fin 0)
  status := sanitizeStatus po.status

/-- `filter(Boolean)` on a raw JS array: drop the falsy entries. -/
def filterSome : List (Option α) → List α
  | [] => []
  | none :: rest => filterSome rest
  | some a :: rest => a :: filterSome rest

/-- Lines 92-115: sanitize one raw product.  `idx` is the index in the
post-filter array (the `.map((sku, idx) => ...)` callback argument). -/
def sanitizeSku (nowMs : ℚ) (todayStr : String) (idx : ℕ) (sku : RawSku) : SSku :=
  let id : JsNum := sanitizeId ((idx : ℚ) + 1) sku.id
  { id := id
    name := sku.name.getD ("商品 #" ++ id.toDisplay)
    currentStock := sku.currentStock.getD (.fin 0)
    unitCost := (sku.unitCost.getD (.fin 0)).clampFiniteNonneg
    monthlySales :=
      (List.range 12).map (fun i => ((sku.monthlySales.getD []).getD i none).getD (.fin 0))
    pos := (filterSome (sku.pos.getD [])).map (sanitizePo nowMs todayStr) }

/-- Indexed map implementing `.map((sku, idx) => ...)`. -/
def sanitizeLoop (nowMs : ℚ) (todayStr : String) : ℕ → List RawSku → List SSku
  | _, [] => []
  | idx, s :: rest => sanitizeSku nowMs todayStr idx s :: sanitizeLoop nowMs todayStr (idx + 1) rest

/-- `sanitizeSkus` (src/main.jsx lines 88-117).  `items = none` models a
non-array input (the `Array.isArray` guard on line 89). -/
def sanitizeSkus (nowMs : ℚ) (todayStr : String) (items : Option (List (Option RawSku))) : List SSku :=
  sanitizeLoop nowMs todayStr 0 (filterSome (items.getD []))

/-- Re-inject a sanitized PO as a raw record (every field present), for
stating idempotence of sanitation. -/
def SPo.toRaw (p : SPo) : RawPo where
  id := some p.id
  poNumber := some p.poNumber
  orderDate := some p.orderDate
  qty := some p.qty
  prodDays := some p.prodDays
  leg1Mode := some p.leg1Mode
  leg1Days := some p.leg1Days
  leg2Mode := some p.leg2Mode
  leg2Days := some p.leg2Days
  leg3Mode := some p.leg3Mode
  leg3Days := some p.leg3Days
  status := some p.status

/-- Re-inject a sanitized product as a raw record. -/
def SSku.toRaw (s : SSku) : RawSku where
  id := some s.id
  name := some s.name
  currentStock := some s.currentStock
  unitCost := some s.unitCost
  monthlySales := some (s.monthlySales.map some)
  pos := some (s.pos.map (fun p => some p.toRaw))

/-!
## Forecast engine

The engine (`generateForecast`, src/main.jsx lines 792-828) is applied
to data-model-conformant products (spec §3: finite numeric fields,
non-negative integer lead-time day counts), as produced by user edits
and the bootstrap defaults; its `Number(x || 0)` coercions are the
identity on such values.  Dates are epoch day numbers (see the header
comment): day `i` of the simulation is `today + i`, and a PO's arrival
matches day `i` exactly when its computed arrival day number equals
`today + i`.
-/

/-- Purchase order as consumed by the engine: `qty` finite, lead-time
day counts non-negative integers (data model §3), `orderDate` an epoch
day number, `status` the lifecycle string. -/
structure Po where
  qty : ℚ
  orderDate : ℤ
  prodDays : ℕ
  leg1Days : ℕ
  leg2Days : ℕ
  leg3Days : ℕ
  status : String
deriving DecidableEq, Repr

/-- Product as consumed by the engine. -/
structure Sku where
  currentStock : ℚ
  monthlySales : List ℚ
  pos : List Po
deriving DecidableEq, Repr

/-- Ambient Gregorian calendar: the month index (`getMonth()`, 0-11) and
year (`getFullYear()`) of an epoch day number.  These depend on the wall
clock's time zone, so the engine is parameterised by them; all theorems
hold for every calendar. -/
structure Calendar where
  monthOfDay : ℤ → Fin 12
  yearOfDay : ℤ → ℤ

/-- One point of the daily series (line 822). -/
structure DayPoint where
  date : ℤ
  stock : ℚ
  status : String
  incomingQty : ℚ
deriving DecidableEq, Repr

/-- One month-end snapshot (line 824). -/
structure MonthEnd where
  year : ℤ
  month : ℕ
  stock : ℚ
  status : String
deriving DecidableEq, Repr

/-- The record returned by `generateForecast` (line 827). -/
structure ForecastResult where
  data : List DayPoint
  currentMonthRate : ℚ
  monthEndStocks : List MonthEnd
deriving DecidableEq, Repr

/-- A PO's computed arrival day (lines 810-812): `orderDate` plus
`prodDays + leg1Days + leg2Days + leg3Days` days. -/
def arrivalDate (po : Po) : ℤ :=
  po.orderDate + (po.prodDays + po.leg1Days + po.leg2Days + po.leg3Days : ℕ)

/-- Arrival day in the earlier revision (its lines 517-519), which omits
`leg3Days` from the sum. -/
def arrivalDateV1 (po : Po) : ℤ :=
  po.orderDate + (po.prodDays + po.leg1Days + po.leg2Days : ℕ)

/-- Lines 806-814: total quantity of non-cancelled POs arriving on day
`d` (the `forEach` accumulating `incomingQty`). -/
def incomingOn (pos : List Po) (d : ℤ) : ℚ :=
  (pos.map (fun po =>
    if po.status = "cancelled" then 0
    else if arrivalDate po = d then po.qty else 0)).sum

/-- Same accumulation in the earlier revision (its lines 513-521), with
its arrival-date formula. -/
def incomingOnV1 (pos : List Po) (d : ℤ) : ℚ :=
  (pos.map (fun po =>
    if po.status = "cancelled" then 0
    else if arrivalDateV1 po = d then po.qty else 0)).sum

/-- Line 820: day status classification. -/
def statusOf (runningStock dailyConsumption warningDays : ℚ) : String :=
  if runningStock ≤ 0 then "stockout"
  else if runningStock < dailyConsumption * warningDays then "low"
  else "ok"

/-- The loop body of lines 800-826, processing `n` consecutive days
starting at day number `date` with internal running stock `stock`.
Each day: consumption is applied first, floored at zero (line 817), the
day's arrivals are added (line 818), the day's point records
`max 0 runningStock` (lines 821-822), and if the next day falls in a
different month a month-end snapshot of the internal running stock is
pushed (lines 823-825). -/
def forecastFrom (cal : Calendar) (warningDays : ℚ) (rates : List ℚ) (pos : List Po) :
    ℕ → ℤ → ℚ → List DayPoint × List MonthEnd
  | 0, _, _ => ([], [])
  | n + 1, date, stock =>
    let dailyConsumption := rates.getD (cal.monthOfDay date) 0
    let incomingQty := incomingOn pos date
    let afterConsumption := max 0 (stock - dailyConsumption)
    let running := afterConsumption + incomingQty
    let status := statusOf running dailyConsumption warningDays
    let rest := forecastFrom cal warningDays rates pos n (date + 1) running
    (⟨date, max 0 running, status, incomingQty⟩ :: rest.1,
     if cal.monthOfDay (date + 1) ≠ cal.monthOfDay date then
       ⟨cal.yearOfDay date, (cal.monthOfDay date : ℕ) + 1, running, status⟩ :: rest.2
     else rest.2)

/-- Same loop for the earlier revision: identical source text except for
the arrival-date sum inside the incoming accumulation. -/
def forecastFromV1 (cal : Calendar) (warningDays : ℚ) (rates : List ℚ) (pos : List Po) :
    ℕ → ℤ → ℚ → List DayPoint × List MonthEnd
  | 0, _, _ => ([], [])
  | n + 1, date, stock =>
    let dailyConsumption := rates.getD (cal.monthOfDay date) 0
    let incomingQty := incomingOnV1 pos date
    let afterConsumption := max 0 (stock - dailyConsumption)
    let running := afterConsumption + incomingQty
    let status := statusOf running dailyConsumption warningDays
    let rest := forecastFromV1 cal warningDays rates pos n (date + 1) running
    (⟨date, max 0 running, status, incomingQty⟩ :: rest.1,
     if cal.monthOfDay (date + 1) ≠ cal.monthOfDay date then
       ⟨cal.yearOfDay date, (cal.monthOfDay date : ℕ) + 1, running, status⟩ :: rest.2
     else rest.2)

/-- `generateForecast` (src/main.jsx lines 792-828).  The loop runs for
`i = 0 .. days` inclusive, i.e. `days + 1` iterations starting at
`today`.  A missing product yields the empty result (line 793). -/
def generateForecast (cal : Calendar) (warningDays : ℚ) (today : ℤ)
    (sku : Option Sku) (days : ℕ) : ForecastResult :=
  match sku with
  | none => ⟨[], 0, []⟩
  | some sku =>
    let rates := sku.monthlySales.map (· / 30)
    let r := forecastFrom cal warningDays rates sku.pos (days + 1) today sku.currentStock
    ⟨r.1, rates.getD (cal.monthOfDay today) 0, r.2⟩

/-- `generateForecast` of the earlier revision (its lines 499-535):
identical except that `leg3Days` is absent from the lead-time sum. -/
def generateForecastV1 (cal : Calendar) (warningDays : ℚ) (today : ℤ)
    (sku : Option Sku) (days : ℕ) : ForecastResult :=
  match sku with
  | none => ⟨[], 0, []⟩
  | some sku =>
    let rates := sku.monthlySales.map (· / 30)
    let r := forecastFromV1 cal warningDays rates sku.pos (days + 1) today sku.currentStock
    ⟨r.1, rates.getD (cal.monthOfDay today) 0, r.2⟩

/-!
## Dashboard analytics (src/main.jsx lines 831-968)
-/

/-- Line 847: the non-cancelled POs. -/
def activePOs (pos : List Po) : List Po :=
  pos.filter (fun po => po.status ≠ "cancelled")

/-- Lines 852-864: earliest index in the series at which some active
PO's arrival date appears (`-1` when none is found). -/
def earliestArrivalIndex (data : List DayPoint) (pos : List Po) : ℤ :=
  pos.foldl (fun acc po =>
    match data.findIdx? (fun d => decide (d.date = arrivalDate po)) with
    | some idx => if acc = -1 ∨ (idx : ℤ) < acc then idx else acc
    | none => acc) (-1)

/-- Lines 872-880: index of the last day with positive stock, scanning
backwards (`-1` when stock is never positive). -/
def lastPositiveIdx (data : List DayPoint) : ℤ :=
  match data.reverse.findIdx? (fun d => decide (0 < d.stock)) with
  | some j => (data.length : ℤ) - 1 - j
  | none => -1

/-- Lines 842-881: the target day index ("effective exhaustion point").
Note that in the zero-stock branch the code assigns the `findIndex`
result computed on the *sliced* series directly (line 869), without
adding back the slice offset. -/
def targetDayIndexOf (sku : Sku) (data : List DayPoint) : ℕ :=
  let aps := activePOs sku.pos
  if sku.currentStock = 0 ∧ 0 < aps.length then
    let e := earliestArrivalIndex data aps
    if 0 ≤ e then
      match (data.drop e.toNat).findIdx? (fun d => decide (d.stock ≤ 0)) with
      | some r => r
      | none => 400
    else 400
  else (max 0 (lastPositiveIdx data)).toNat

/-- Line 884: `(daysUntilStockout / 30).toFixed(1)`, in tenths of a
month.  `toFixed(1)` rounds to the nearest tenth, half away from zero;
for an integer `d ≤ 400` the value `d/30` is never at a tie (a tie
needs `d/3 ≡ 1/2 (mod 1)`, impossible for integer `d`) and the binary
floating-point error of `d / 30` (about `10⁻¹⁶`) is far below the
distance `≥ 1/60` to the nearest tie, so the rounded tenths equal
`round(d / 3) = ⌊(2d + 3) / 6⌋` exactly. -/
def monthsTenths (d : ℕ) : ℕ := (2 * d + 3) / 6

/-- Lines 883-896: risk tier from `daysUntilStockout`.  The code
compares the one-decimal string `monthsUntilStockout` numerically
(`>= 12`, `>= 6`), i.e. it buckets the *rounded* month count. -/
def riskLevelOfDays (d : ℕ) : String :=
  if 120 ≤ monthsTenths d then "safe"
  else if 60 ≤ monthsTenths d then "warning"
  else "critical"

/-- Lines 898-905 together with the `urgency` variable: in the current
revision `urgency` is initialised to `"normal"` (line 836) and never
reassigned before being returned (line 967), and the recommended order
date (`orderDateStr`) is set to the exhaustion date itself (line 903)
when `targetDayIndex < 400` and that series point exists (`none` models
the `"安全"` default). -/
def orderInfo (sku : Sku) (data : List DayPoint) : Option ℤ × String :=
  let t := targetDayIndexOf sku data
  (if t < 400 then (data.get? t).map (fun d => d.date) else none, "normal")

/-- Earlier revision, lines 540-548: the first day with `stock <= 0`. -/
def firstStockOut (data : List DayPoint) : Option DayPoint :=
  data.find? (fun d => decide (d.stock ≤ 0))

/-- Earlier revision, lines 541-548: the reorder deadline is the first
stockout's date minus `warningDays` days, and urgency is `"critical"`
when that instant is before now.  Instants are measured in days
(`warningDays * 86400000` ms = `warningDays` days); `now` is the current
instant, also in days. -/
def orderInfoV1 (now warningDays : ℚ) (data : List DayPoint) : Option ℚ × String :=
  match firstStockOut data with
  | none => (none, "normal")
  | some p =>
    let deadline : ℚ := (p.date : ℚ) - warningDays
    (some deadline, if deadline < now then "critical" else "normal")

/-- Lines 907-918: cumulative forecast consumption over the safe
coverage window, summed over the generated series. -/
def safeCoverageMonths : ℚ := 6.5

/-- Line 909: `Math.ceil(6.5 * 30)`. -/
def safeCoverageDays : ℕ := ⌈safeCoverageMonths * 30⌉.toNat

/-- Lines 912-918: for each of the first `safeCoverageDays` series
entries, add `monthlySales[month of that entry's date] / 30`. -/
def cumulativeConsumption (cal : Calendar) (monthlySales : List ℚ) (data : List DayPoint) : ℚ :=
  ((data.take safeCoverageDays).map
    (fun p => monthlySales.getD (cal.monthOfDay p.date) 0 / 30)).sum

/-- Lines 920-921: `suggestQty = Math.max(0, cumulativeConsumption - currentStock)`. -/
def suggestQtyOf (cal : Calendar) (sku : Sku) (data : List DayPoint) : ℚ :=
  max 0 (cumulativeConsumption cal sku.monthlySales data - sku.currentStock)

/-- The running-stock recurrence exactly as the claim (and spec §4.2
steps c-d) states it: day `i`'s internal stock is
`max(0, previous - dailyConsumption) + incomingQty`, starting from
`currentStock` before day 0. -/
def specRunningStock (cal : Calendar) (rates : List ℚ) (pos : List Po)
    (today : ℤ) (currentStock : ℚ) : ℕ → ℚ
  | 0 => max 0 (currentStock - rates.getD (cal.monthOfDay today) 0) + incomingOn pos today
  | i + 1 =>
    max 0 (specRunningStock cal rates pos today currentStock i
        - rates.getD (cal.monthOfDay (today + (i + 1))) 0)
      + incomingOn pos (today + (i + 1))

/-- A concrete calendar (every day in January of year 0), used to
instantiate theorems at concrete inputs. -/
def janCal : Calendar := ⟨fun _ => 0, fun _ => 0⟩

/-- The concrete product from C1's particular case: `currentStock = 5`,
`monthlySales` 300 in the current (all-days) month (daily rate 10), one
non-cancelled PO of qty 20 with zero lead time arriving on day 0. -/
def sku1 : Sku := ⟨5, 300 :: List.replicate 11 0, [⟨20, 0, 0, 0, 0, 0, "ordered"⟩]⟩

/-- The product of C6's counterexample: zero stock, all-zero sales, no
POs — it exhausts on day 0, well within the 400-day dashboard horizon. -/
def skuC6 : Sku := ⟨0, List.replicate 12 0, []⟩

/-- A small well-formed raw product, used to instantiate the sanitizer
theorems at a concrete input. -/
def raw0 : RawSku :=
  ⟨some (.fin 2), some "x", some (.fin 1), some (.fin 3), some [], some []⟩

/-- A malformed raw product for the sanitation counterexample: negative
`currentStock`, NaN `unitCost`, a negative monthly sales entry, and a PO
with negative `qty`. -/
def rawBad : RawSku :=
  ⟨none, none, some (.fin (-5)), some .nan, some [some (.fin (-1))],
   some [some ⟨none, none, none, some (.fin (-3)), none, none, none, none, none, none,
     none, none⟩]⟩

/-!
## Helper lemmas
-/

lemma incomingOn_append (l1 l2 : List Po) (d : ℤ) :
    incomingOn (l1 ++ l2) d = incomingOn l1 d + incomingOn l2 d := by
  simp [incomingOn]

lemma incomingOn_cancelled_cons (po : Po) (l : List Po) (d : ℤ) :
    incomingOn ({po with status := "cancelled"} :: l) d = incomingOn l d := by
  simp [incomingOn]

lemma forecastFrom_congr_inc (cal : Calendar) (wd : ℚ) (rates : List ℚ)
    {pos1 pos2 : List Po} (h : ∀ d, incomingOn pos1 d = incomingOn pos2 d) :
    ∀ (n : ℕ) (date : ℤ) (s : ℚ),
      forecastFrom cal wd rates pos1 n date s = forecastFrom cal wd rates pos2 n date s := by
  intro n
  induction n with
  | zero => intro date s; rfl
  | succ n ih =>
    intro date s
    simp only [forecastFrom, h, ih]

lemma arrivalDateV1_eq_of_leg3_zero {po : Po} (h : po.leg3Days = 0) :
    arrivalDateV1 po = arrivalDate po := by
  simp [arrivalDate, arrivalDateV1, h]

lemma incomingOnV1_eq {pos : List Po} (h : ∀ po ∈ pos, po.leg3Days = 0) (d : ℤ) :
    incomingOnV1 pos d = incomingOn pos d := by
  unfold incomingOn incomingOnV1
  congr 1
  apply List.map_congr_left
  intro po hpo
  rw [arrivalDateV1_eq_of_leg3_zero (h po hpo)]

lemma forecastFromV1_eq_of_inc (cal : Calendar) (wd : ℚ) (rates : List ℚ)
    {pos : List Po} (h : ∀ d, incomingOnV1 pos d = incomingOn pos d) :
    ∀ (n : ℕ) (date : ℤ) (s : ℚ),
      forecastFromV1 cal wd rates pos n date s = forecastFrom cal wd rates pos n date s := by
  intro n
  induction n with
  | zero => intro date s; rfl
  | succ n ih =>
    intro date s
    simp only [forecastFrom, forecastFromV1, h, ih]

lemma forecastFrom_length (cal : Calendar) (wd : ℚ) (rates : List ℚ) (pos : List Po) :
    ∀ (n : ℕ) (date : ℤ) (s : ℚ), (forecastFrom cal wd rates pos n date s).1.length = n := by
  intro n
  induction n with
  | zero => intro date s; rfl
  | succ n ih =>
    intro date s
    simp only [forecastFrom, List.length_cons, ih]

lemma specRunningStock_shift (cal : Calendar) (rates : List ℚ) (pos : List Po)
    (date : ℤ) (s : ℚ) :
    ∀ i : ℕ,
      specRunningStock cal rates pos date s (i + 1)
        = specRunningStock cal rates pos (date + 1)
            (max 0 (s - rates.getD (cal.monthOfDay date) 0) + incomingOn pos date) i := by
  intro i
  induction i with
  | zero =>
    show max 0 (specRunningStock cal rates pos date s 0 - _) + _ = _
    simp [specRunningStock]
  | succ i ih =>
    show max 0 (specRunningStock cal rates pos date s (i + 1) - _) + _ = _
    rw [ih]
    have harith : date + (((i + 1 : ℕ) : ℤ) + 1) = date + 1 + ((i : ℤ) + 1) := by
      push_cast
      ring
    rw [harith]
    conv_rhs => rw [specRunningStock]

lemma forecastFrom_get? (cal : Calendar) (wd : ℚ) (rates : List ℚ) (pos : List Po) :
    ∀ (i n : ℕ) (date : ℤ) (s : ℚ), i < n →
      (forecastFrom cal wd rates pos n date s).1.get? i
        = some ⟨date + (i : ℤ),
                max 0 (specRunningStock cal rates pos date s i),
                statusOf (specRunningStock cal rates pos date s i)
                  (rates.getD (cal.monthOfDay (date + (i : ℤ))) 0) wd,
                incomingOn pos (date + (i : ℤ))⟩ := by
  intro i
  induction i with
  | zero =>
    intro n date s h
    match n, h with
    | n + 1, _ =>
      simp [forecastFrom, specRunningStock]
  | succ i ih =>
    intro n date s h
    match n, h with
    | m + 1, h =>
      have hm : i < m := by omega
      have harith : (date + 1) + (i : ℤ) = date + ((i + 1 : ℕ) : ℤ) := by
        push_cast
        ring
      simp only [forecastFrom, List.get?_cons_succ]
      rw [ih m (date + 1) _ hm, specRunningStock_shift, harith]

lemma forecastFrom_dates (cal : Calendar) (wd : ℚ) (rates : List ℚ) (pos : List Po) :
    ∀ (n : ℕ) (date : ℤ) (s : ℚ),
      (forecastFrom cal wd rates pos n date s).1.map (fun p => p.date)
        = (List.range n).map (fun i : ℕ => date + (i : ℤ)) := by
  intro n
  induction n with
  | zero => intro date s; rfl
  | succ n ih =>
    intro date s
    rw [List.range_succ_eq_map]
    simp only [forecastFrom, List.map_cons, List.map_map, ih]
    refine congrArg₂ _ (by push_cast; ring) ?_
    apply List.map_congr_left
    intro a _
    simp only [Function.comp_apply]
    push_cast
    ring

lemma getD_all_zero {rates : List ℚ} (hr : ∀ x ∈ rates, x = 0) (i : ℕ) :
    rates.getD i 0 = 0 := by
  rcases h : rates[i]? with _ | x
  · simp [List.getD_eq_getElem?_getD, h]
  · have hmem : x ∈ rates := by
      have hg : rates.get? i = some x := by
        rw [List.get?_eq_getElem?, h]
      exact List.get?_mem hg
    simp [List.getD_eq_getElem?_getD, h, hr x hmem]

lemma incomingOn_nil (d : ℤ) : incomingOn [] d = 0 := rfl

/-- With all-zero daily rates and no POs, every emitted point carries
the unchanged stock `s` and the constant status `statusOf s 0 wd`. -/
lemma forecastFrom_constant (cal : Calendar) (wd : ℚ) {rates : List ℚ}
    (hr : ∀ x ∈ rates, x = 0) :
    ∀ (n : ℕ) (date : ℤ) (s : ℚ), 0 ≤ s →
      ∀ p ∈ (forecastFrom cal wd rates [] n date s).1,
        p.stock = s ∧ p.status = statusOf s 0 wd := by
  intro n
  induction n with
  | zero => intro date s _ p hp; simp [forecastFrom] at hp
  | succ n ih =>
    intro date s hs p hp
    have hrun : max 0 (s - rates.getD (cal.monthOfDay date) 0) + incomingOn [] date = s := by
      rw [getD_all_zero hr, incomingOn_nil, sub_zero, add_zero, max_eq_right hs]
    simp only [forecastFrom, hrun, List.mem_cons] at hp
    rcases hp with hp | hp
    · subst hp
      refine ⟨max_eq_right hs, ?_⟩
      rw [getD_all_zero hr]
    · exact ih (date + 1) s hs p hp

lemma findIdx?_none_of_all_false {l : List α} {p : α → Bool}
    (h : ∀ a ∈ l, p a = false) : ∀ start : ℕ, l.findIdx? p start = none := by
  induction l with
  | nil => intro start; rfl
  | cons a l ih =>
    intro start
    have ha : p a = false := h a (List.mem_cons_self a l)
    simp only [List.findIdx?, ha, cond_false]
    exact ih (fun b hb => h b (List.mem_cons_of_mem a hb)) (start + 1)

lemma lastPositiveIdx_eq_neg_one {l : List DayPoint}
    (h : l.reverse.findIdx? (fun d => decide (0 < d.stock)) 0 = none) :
    lastPositiveIdx l = -1 := by
  unfold lastPositiveIdx
  rw [h]

/-!
## Claim theorems
-/

/-- C7: a PO's computed arrival date is `orderDate` plus the sum of the
four lead-time day counts; increasing any one of the four day counts
never moves the arrival date earlier, and the arrival date is always on
or after `orderDate`. -/
theorem arrival_formula_and_monotone (po : Po) :
    arrivalDate po
        = po.orderDate + ((po.prodDays + po.leg1Days + po.leg2Days + po.leg3Days : ℕ) : ℤ)
      ∧ po.orderDate ≤ arrivalDate po
      ∧ ∀ k : ℕ,
          arrivalDate po ≤ arrivalDate { po with prodDays := po.prodDays + k }
        ∧ arrivalDate po ≤ arrivalDate { po with leg1Days := po.leg1Days + k }
        ∧ arrivalDate po ≤ arrivalDate { po with leg2Days := po.leg2Days + k }
        ∧ arrivalDate po ≤ arrivalDate { po with leg3Days := po.leg3Days + k } := by
  refine ⟨rfl, ?_, fun k => ⟨?_, ?_, ?_, ?_⟩⟩ <;>
    simp only [arrivalDate] <;> push_cast <;> omega

/-- C2: setting a PO's status to `cancelled` produces exactly the same
daily series as removing that PO from the list entirely — same dates,
stocks, statuses, and incoming quantities on every day. -/
theorem cancelled_po_invariance (cal : Calendar) (wd : ℚ) (today : ℤ) (days : ℕ)
    (cs : ℚ) (ms : List ℚ) (l1 l2 : List Po) (po : Po) :
    (generateForecast cal wd today
        (some ⟨cs, ms, l1 ++ ({ po with status := "cancelled" } :: l2)⟩) days).data
      = (generateForecast cal wd today (some ⟨cs, ms, l1 ++ l2⟩) days).data := by
  have hinc : ∀ d, incomingOn (l1 ++ ({ po with status := "cancelled" } :: l2)) d
      = incomingOn (l1 ++ l2) d := by
    intro d
    rw [incomingOn_append, incomingOn_cancelled_cons, incomingOn_append]
  simp only [generateForecast]
  exact congrArg Prod.fst (forecastFrom_congr_inc cal wd _ hinc (days + 1) today cs)

/-- C5 (amended): the dashboard risk tier buckets the day count after
converting to months *rounded to one decimal place* (`toFixed(1)`), so
the exact day thresholds are 359 (safe) and 179 (warning); the three
quoted instances hold: 180 days → warning, 360 days → safe,
170 days → critical. -/
theorem risk_tier_rounded_thresholds :
    (∀ d : ℕ, riskLevelOfDays d
        = if 359 ≤ d then "safe" else if 179 ≤ d then "warning" else "critical")
      ∧ riskLevelOfDays 180 = "warning"
      ∧ riskLevelOfDays 360 = "safe"
      ∧ riskLevelOfDays 170 = "critical" := by
  refine ⟨?_, by decide, by decide, by decide⟩
  intro d
  simp only [riskLevelOfDays, monthsTenths]
  split_ifs <;> first | rfl | omega

/-- C5 counterexample: at a target day index of 179 days the quotient
`179 / 30 ≈ 5.97` is below 6 months, so the claim classifies it
`critical`, but the code classifies it `warning` (the rounded month
string is `"6.0"`). -/
theorem risk_tier_day179_counterexample :
    riskLevelOfDays 179 = "warning" ∧ (179 : ℚ) / 30 < 6 :=
  ⟨by decide, by norm_num⟩

/-- C10 (amended): on every product whose POs all have `leg3Days = 0`,
the two revisions' forecast engines return identical results — same
daily series, same `currentMonthRate`, same month-end snapshots. -/
theorem engines_agree_of_leg3_zero (cal : Calendar) (wd : ℚ) (today : ℤ)
    (days : ℕ) (sku : Sku) (h : ∀ po ∈ sku.pos, po.leg3Days = 0) :
    generateForecastV1 cal wd today (some sku) days
      = generateForecast cal wd today (some sku) days := by
  simp only [generateForecast, generateForecastV1]
  rw [forecastFromV1_eq_of_inc cal wd _ (incomingOnV1_eq h) (days + 1) today sku.currentStock]

/-- Witness for C10's theorem at a concrete product with one
`leg3Days = 0` PO. -/
theorem engines_agree_of_leg3_zero_witness :
    (∀ po ∈ ([⟨3, 0, 1, 2, 3, 0, "ordered"⟩] : List Po), po.leg3Days = 0)
      ∧ generateForecastV1 janCal 225 0 (some ⟨5, List.replicate 12 0, [⟨3, 0, 1, 2, 3, 0, "ordered"⟩]⟩) 3
          = generateForecast janCal 225 0 (some ⟨5, List.replicate 12 0, [⟨3, 0, 1, 2, 3, 0, "ordered"⟩]⟩) 3 :=
  ⟨by decide, engines_agree_of_leg3_zero janCal 225 0 3 _ (by decide)⟩

/-- C10 counterexample to "this restriction is exactly the domain on
which they agree": a product whose only PO is cancelled and has
`leg3Days = 4 ≠ 0` violates the restriction, yet both engines produce
identical output on it. -/
theorem engines_agree_outside_leg3_restriction :
    generateForecastV1 janCal 225 0 (some ⟨5, List.replicate 12 0, [⟨7, 0, 1, 2, 3, 4, "cancelled"⟩]⟩) 2
        = generateForecast janCal 225 0 (some ⟨5, List.replicate 12 0, [⟨7, 0, 1, 2, 3, 4, "cancelled"⟩]⟩) 2
      ∧ ¬ (∀ po ∈ ([⟨7, 0, 1, 2, 3, 4, "cancelled"⟩] : List Po), po.leg3Days = 0) := by
  constructor
  · with_unfolding_all decide
  · decide

/-- C1: every recorded point of the daily series follows the
consumption-then-arrival recurrence `max(0, runningStock -
dailyConsumption) + incomingQty` (`specRunningStock`), with the
displayed stock floored at zero; and in the particular quoted case
(stock 5, rate 10, qty-20 arrival on day 0) the day-0 recorded stock is
`max(0, 5 - 10) + 20 = 20`. -/
theorem forecast_consumption_then_arrival :
    (∀ (cal : Calendar) (wd : ℚ) (today : ℤ) (sku : Sku) (days i : ℕ), i ≤ days →
      (generateForecast cal wd today (some sku) days).data.get? i
        = some ⟨today + (i : ℤ),
                max 0 (specRunningStock cal (sku.monthlySales.map (· / 30)) sku.pos
                  today sku.currentStock i),
                statusOf (specRunningStock cal (sku.monthlySales.map (· / 30)) sku.pos
                    today sku.currentStock i)
                  ((sku.monthlySales.map (· / 30)).getD (cal.monthOfDay (today + (i : ℤ))) 0) wd,
                incomingOn sku.pos (today + (i : ℤ))⟩)
      ∧ (generateForecast janCal 225 0 (some sku1) 0).data.map (fun p => p.stock) = [20] := by
  constructor
  · intro cal wd today sku days i h
    simp only [generateForecast]
    exact forecastFrom_get? cal wd _ sku.pos i (days + 1) today sku.currentStock (by omega)
  · with_unfolding_all decide

/-- Witness for C1's theorem: the general recurrence applied at the
concrete product `sku1`, day 0 of a 0-day horizon. -/
theorem forecast_consumption_then_arrival_witness :
    (0 : ℕ) ≤ 0
      ∧ (generateForecast janCal 225 0 (some sku1) 0).data.get? 0
        = some ⟨0 + ((0 : ℕ) : ℤ),
                max 0 (specRunningStock janCal (sku1.monthlySales.map (· / 30)) sku1.pos
                  0 sku1.currentStock 0),
                statusOf (specRunningStock janCal (sku1.monthlySales.map (· / 30)) sku1.pos
                    0 sku1.currentStock 0)
                  ((sku1.monthlySales.map (· / 30)).getD (janCal.monthOfDay (0 + ((0 : ℕ) : ℤ))) 0) 225,
                incomingOn sku1.pos (0 + ((0 : ℕ) : ℤ))⟩ :=
  ⟨le_refl 0, forecast_consumption_then_arrival.1 janCal 225 0 sku1 0 0 (le_refl 0)⟩

/-- C8: the suggested reorder quantity equals `max(0, S - currentStock)`
where `S` is the cumulative forecast consumption over the first
`min(195, series length)` simulated days, each day contributing
`monthlySales[calendar month of that day] / 30`. -/
theorem suggest_qty_safe_window (cal : Calendar) (sku : Sku) (wd : ℚ) (today : ℤ) (days : ℕ) :
    suggestQtyOf cal sku (generateForecast cal wd today (some sku) days).data
      = max 0 (((List.range (min 195 (days + 1))).map
            (fun i : ℕ => sku.monthlySales.getD (cal.monthOfDay (today + (i : ℤ))) 0 / 30)).sum
          - sku.currentStock) := by
  have hsafe : safeCoverageDays = 195 := by
    with_unfolding_all decide
  simp only [suggestQtyOf, cumulativeConsumption, generateForecast]
  have hmaps :
      (forecastFrom cal wd (sku.monthlySales.map (· / 30)) sku.pos (days + 1) today
            sku.currentStock).1.map
          (fun p => sku.monthlySales.getD (cal.monthOfDay p.date) 0 / 30)
        = (List.range (days + 1)).map
            (fun i : ℕ => sku.monthlySales.getD (cal.monthOfDay (today + (i : ℤ))) 0 / 30) := by
    have hdates := forecastFrom_dates cal wd (sku.monthlySales.map (· / 30)) sku.pos
      (days + 1) today sku.currentStock
    have h2 := congrArg
      (List.map (fun d : ℤ => sku.monthlySales.getD (cal.monthOfDay d) 0 / 30)) hdates
    rw [List.map_map, List.map_map] at h2
    exact h2
  rw [hsafe, List.map_take, hmaps, ← List.map_take, List.take_range]

/-- C4 (amended): a product with 12 all-zero `monthlySales`, no POs and
non-negative `currentStock` keeps `stock = currentStock` on every day of
every horizon; when `currentStock` is strictly positive the status is
never `low` or `stockout`.  (When `currentStock = 0` the stock equality
still holds but every day is classified `stockout`.) -/
theorem allzero_product_constant_series (cal : Calendar) (wd : ℚ) (today : ℤ) (days : ℕ)
    (cs : ℚ) (hcs : 0 ≤ cs) :
    ∀ p ∈ (generateForecast cal wd today (some ⟨cs, List.replicate 12 0, []⟩) days).data,
      p.stock = cs ∧ (0 < cs → p.status ≠ "low" ∧ p.status ≠ "stockout") := by
  intro p hp
  have hmap : (List.replicate 12 (0 : ℚ)).map (· / 30) = List.replicate 12 0 := by
    rw [List.map_replicate]
    norm_num
  simp only [generateForecast, hmap] at hp
  obtain ⟨h1, h2⟩ := forecastFrom_constant cal wd
    (fun x hx => List.eq_of_mem_replicate hx) (days + 1) today cs hcs p hp
  refine ⟨h1, fun hpos => ?_⟩
  have hst : statusOf cs 0 wd = "ok" := by
    unfold statusOf
    rw [zero_mul, if_neg (not_le.mpr hpos), if_neg (not_lt.mpr (le_of_lt hpos))]
  rw [h2, hst]
  exact ⟨by decide, by decide⟩

/-- Witness for C4's theorem at `currentStock = 100`. -/
theorem allzero_product_constant_series_witness :
    (0 : ℚ) ≤ 100
      ∧ ∀ p ∈ (generateForecast janCal 225 0 (some ⟨100, List.replicate 12 0, []⟩) 0).data,
          p.stock = 100 ∧ ((0 : ℚ) < 100 → p.status ≠ "low" ∧ p.status ≠ "stockout") :=
  ⟨by norm_num, allzero_product_constant_series janCal 225 0 0 100 (by norm_num)⟩

/-- C4 counterexample: the qualifying product with `currentStock = 0`
(12 all-zero `monthlySales`, empty `pos`) gets status `stockout` on day
0, because `runningStock <= 0` classifies as `stockout`. -/
theorem allzero_zero_stock_counterexample :
    (generateForecast janCal 225 0 (some ⟨0, List.replicate 12 0, []⟩) 0).data.map
        (fun p => p.status) = ["stockout"] := by
  with_unfolding_all decide


/-- C6 (amended): the earlier revision implements the claimed rule —
recommended order date = first projected stockout date minus
`warningDays`, and urgency is `critical` exactly when that deadline lies
before the current instant.  The current revision does not: its
recommended order date is the exhaustion date itself and its `urgency`
field is always `"normal"`. -/
theorem reorder_deadline_revisions :
    (∀ (now wd : ℚ) (data : List DayPoint) (p : DayPoint),
        firstStockOut data = some p →
          (orderInfoV1 now wd data).1 = some ((p.date : ℚ) - wd)
            ∧ ((orderInfoV1 now wd data).2 = "critical" ↔ (p.date : ℚ) - wd < now))
      ∧ ∀ (sku : Sku) (data : List DayPoint), (orderInfo sku data).2 = "normal" := by
  constructor
  · intro now wd data p hp
    have e : orderInfoV1 now wd data
        = (some ((p.date : ℚ) - wd),
           if (p.date : ℚ) - wd < now then "critical" else "normal") := by
      unfold orderInfoV1
      rw [hp]
    rw [e]
    refine ⟨rfl, ?_⟩
    show (if (p.date : ℚ) - wd < now then "critical" else "normal") = "critical"
        ↔ (p.date : ℚ) - wd < now
    rcases lt_or_ge ((p.date : ℚ) - wd) now with h | h
    · rw [if_pos h]
      simp [h]
    · rw [if_neg (not_lt.mpr h)]
      constructor
      · intro h'
        exact absurd h' (by decide)
      · intro h'
        exact absurd h' (not_lt.mpr h)
  · intro sku data
    rfl

/-- Witness for C6's theorem: the earlier-revision rule applied to a
one-day series that stocks out on day 0 (`now = 0`, `warningDays = 225`). -/
theorem reorder_deadline_revisions_witness :
    firstStockOut [⟨0, 0, "stockout", 0⟩] = some ⟨0, 0, "stockout", 0⟩
      ∧ ((orderInfoV1 0 225 [⟨0, 0, "stockout", 0⟩]).1
            = some ((((0 : ℤ) : ℚ)) - 225)
          ∧ ((orderInfoV1 0 225 [⟨0, 0, "stockout", 0⟩]).2 = "critical"
              ↔ (((0 : ℤ) : ℚ)) - 225 < 0)) :=
  ⟨by with_unfolding_all decide,
   reorder_deadline_revisions.1 0 225 [⟨0, 0, "stockout", 0⟩] ⟨0, 0, "stockout", 0⟩
     (by with_unfolding_all decide)⟩

/-- C6 counterexample: for `skuC6` (exhaustion on day 0, `today = 0`,
`warningDays = 225`, current instant 0) the current revision's dashboard
reports order date = day 0 (the exhaustion date itself, not `0 - 225`)
and urgency `"normal"`, although the claimed deadline `0 - 225` lies
before the current instant (which the claim says must give `critical`)
and differs from the reported order date. -/
theorem reorder_deadline_counterexample :
    orderInfo skuC6 (generateForecast janCal 225 0 (some skuC6) 400).data = (some 0, "normal")
      ∧ ((0 : ℚ) - 225 < 0)
      ∧ (0 : ℤ) ≠ 0 - 225 := by
  refine ⟨?_, by norm_num, by decide⟩
  have hdata : (generateForecast janCal 225 0 (some skuC6) 400).data
      = (forecastFrom janCal 225 (List.replicate 12 0) [] 401 0 0).1 := by
    simp only [generateForecast, skuC6]
    rw [show (List.replicate 12 (0 : ℚ)).map (· / 30) = List.replicate 12 0 by
      rw [List.map_replicate]; norm_num]
  have hstocks : ∀ p ∈ (generateForecast janCal 225 0 (some skuC6) 400).data, p.stock = 0 := by
    intro p hp
    rw [hdata] at hp
    exact (forecastFrom_constant janCal 225
      (fun x hx => List.eq_of_mem_replicate hx) 401 0 0 le_rfl p hp).1
  have hnone : (generateForecast janCal 225 0 (some skuC6) 400).data.reverse.findIdx?
      (fun d => decide (0 < d.stock)) 0 = none := by
    apply findIdx?_none_of_all_false
    intro a ha
    have h0 := hstocks a (List.mem_reverse.mp ha)
    simp [h0]
  have hlast := lastPositiveIdx_eq_neg_one hnone
  have hcond : ¬ (skuC6.currentStock = 0 ∧ 0 < (activePOs skuC6.pos).length) := by
    simp [skuC6, activePOs]
  have htarget : targetDayIndexOf skuC6 (generateForecast janCal 225 0 (some skuC6) 400).data
      = 0 := by
    simp only [targetDayIndexOf]
    rw [if_neg hcond, hlast]
    omega
  have hget : (generateForecast janCal 225 0 (some skuC6) 400).data.get? 0
      = some ⟨0 + ((0 : ℕ) : ℤ),
              max 0 (specRunningStock janCal (List.replicate 12 0) [] 0 0 0),
              statusOf (specRunningStock janCal (List.replicate 12 0) [] 0 0 0)
                ((List.replicate 12 (0 : ℚ)).getD (janCal.monthOfDay (0 + ((0 : ℕ) : ℤ))) 0) 225,
              incomingOn [] (0 + ((0 : ℕ) : ℤ))⟩ := by
    rw [hdata]
    exact forecastFrom_get? janCal 225 (List.replicate 12 0) [] 0 401 0 0 (by omega)
  simp only [orderInfo, htarget]
  rw [if_pos (by omega : (0 : ℕ) < 400), hget]
  simp

lemma mem_sanitizeLoop {nowMs : ℚ} {todayStr : String} {s : SSku} :
    ∀ {idx : ℕ} {l : List RawSku}, s ∈ sanitizeLoop nowMs todayStr idx l →
      ∃ i r, s = sanitizeSku nowMs todayStr i r := by
  intro idx l
  induction l generalizing idx with
  | nil => intro h; simp [sanitizeLoop] at h
  | cons a l ih =>
    intro h
    simp only [sanitizeLoop, List.mem_cons] at h
    rcases h with h | h
    · exact ⟨idx, a, h⟩
    · exact ih h

lemma clampFiniteNonneg_finNonneg (v : JsNum) : v.clampFiniteNonneg.finNonneg = true := by
  cases v with
  | fin q =>
    by_cases hq : 0 ≤ q <;> simp [JsNum.clampFiniteNonneg, JsNum.finNonneg, hq]
  | nan => rfl
  | inf => rfl
  | ninf => rfl

lemma clampFiniteNonneg_idem (v : JsNum) :
    v.clampFiniteNonneg.clampFiniteNonneg = v.clampFiniteNonneg := by
  cases v with
  | fin q =>
    by_cases hq : 0 ≤ q <;> simp [JsNum.clampFiniteNonneg, hq]
  | nan => rfl
  | inf => rfl
  | ninf => rfl

lemma sanitizeId_fix (n m : ℚ) (x : Option JsNum) :
    sanitizeId n (some (sanitizeId m x)) = sanitizeId m x := by
  rcases x with _ | v
  · rfl
  · cases v <;> rfl

lemma sanitizeMode_mem (x : Option String) : sanitizeMode x ∈ modeList := by
  rcases x with _ | m
  · decide
  · simp only [sanitizeMode]
    split_ifs with h
    · exact h
    · decide

lemma sanitizeMode_fix (x : Option String) :
    sanitizeMode (some (sanitizeMode x)) = sanitizeMode x := by
  show (if sanitizeMode x ∈ modeList then sanitizeMode x else "sea") = sanitizeMode x
  rw [if_pos (sanitizeMode_mem x)]

lemma sanitizeStatus_mem (x : Option String) : sanitizeStatus x ∈ statusList := by
  rcases x with _ | m
  · decide
  · simp only [sanitizeStatus]
    split_ifs with h
    · exact h
    · decide

lemma sanitizeStatus_fix (x : Option String) :
    sanitizeStatus (some (sanitizeStatus x)) = sanitizeStatus x := by
  show (if sanitizeStatus x ∈ statusList then sanitizeStatus x else "ordered") = sanitizeStatus x
  rw [if_pos (sanitizeStatus_mem x)]

lemma slice10_idem (s : String) : slice10 (slice10 s) = slice10 s := by
  simp [slice10, List.take_take]

lemma filterSome_map_some (f : α → β) :
    ∀ l : List α, filterSome (l.map (fun a => some (f a))) = l.map f := by
  intro l
  induction l with
  | nil => rfl
  | cons a l ih => simp [filterSome, ih]

lemma sanitizePo_fix (n : ℚ) (t : String) (p : RawPo) :
    sanitizePo n t ((sanitizePo n t p).toRaw) = sanitizePo n t p := by
  simp only [sanitizePo, SPo.toRaw, sanitizeId_fix, sanitizeMode_fix, sanitizeStatus_fix,
    slice10_idem, Option.getD_some]

lemma getD_map_some_range {α : Type} (d : α) :
    ∀ (n : ℕ) (l : List α), l.length = n →
      (List.range n).map (fun i => ((l.map some).getD i none).getD d) = l := by
  intro n l hl
  apply List.ext_getElem
  · simp [hl]
  · intro i h1 h2
    have hi : i < n := by simpa using h1
    have hil : i < l.length := by omega
    rw [List.getElem_map, List.getElem_range, List.getD_eq_getElem?_getD,
      List.getElem?_map, List.getElem?_eq_getElem hil]
    rfl

lemma map_sanitizePo_toRaw (n : ℚ) (t : String) (X : List RawPo) :
    (filterSome ((X.map (sanitizePo n t)).map (fun p => some p.toRaw))).map (sanitizePo n t)
      = X.map (sanitizePo n t) := by
  rw [filterSome_map_some, List.map_map, List.map_map]
  apply List.map_congr_left
  intro x _
  simp only [Function.comp_apply]
  exact sanitizePo_fix n t x

lemma sanitizeSku_fix (n : ℚ) (t : String) (i j : ℕ) (r : RawSku) :
    sanitizeSku n t j ((sanitizeSku n t i r).toRaw) = sanitizeSku n t i r := by
  simp only [sanitizeSku, SSku.toRaw, Option.getD_some, sanitizeId_fix, clampFiniteNonneg_idem,
    SSku.mk.injEq, true_and, and_true, eq_self_iff_true]
  constructor
  · exact getD_map_some_range (JsNum.fin 0) 12 _ (by simp)
  · exact map_sanitizePo_toRaw n t (filterSome (r.pos.getD []))

lemma sanitizeLoop_fix (n : ℚ) (t : String) :
    ∀ (l : List RawSku) (i j : ℕ),
      sanitizeLoop n t j ((sanitizeLoop n t i l).map SSku.toRaw) = sanitizeLoop n t i l := by
  intro l
  induction l with
  | nil => intro i j; rfl
  | cons a l ih =>
    intro i j
    simp only [sanitizeLoop, List.map_cons]
    rw [sanitizeSku_fix, ih (i + 1) (j + 1)]

/-- C3 (amended): after sanitation, `unitCost` is always finite and
non-negative and `monthlySales` always has exactly 12 entries — but the
remaining numeric fields (`currentStock`, the `monthlySales` entries,
and each PO's `qty` and lead-time day fields) are passed through the
`Number(...)` coercion without any clamp and may remain negative or
non-finite. -/
theorem sanitize_clamps_unitCost_only (nowMs : ℚ) (todayStr : String)
    (items : Option (List (Option RawSku))) :
    ∀ s ∈ sanitizeSkus nowMs todayStr items,
      s.unitCost.finNonneg = true ∧ s.monthlySales.length = 12 := by
  intro s hs
  obtain ⟨i, r, rfl⟩ := mem_sanitizeLoop hs
  constructor
  · exact clampFiniteNonneg_finNonneg (r.unitCost.getD (JsNum.fin 0))
  · simp [sanitizeSku]

/-- Witness for C3's theorem at the concrete input `raw0`. -/
theorem sanitize_clamps_unitCost_only_witness :
    sanitizeSku 0 "2026-01-01" 0 raw0 ∈ sanitizeSkus 0 "2026-01-01" (some [some raw0])
      ∧ ((sanitizeSku 0 "2026-01-01" 0 raw0).unitCost.finNonneg = true
          ∧ (sanitizeSku 0 "2026-01-01" 0 raw0).monthlySales.length = 12) :=
  ⟨List.mem_singleton_self _,
   sanitize_clamps_unitCost_only 0 "2026-01-01" (some [some raw0]) _
     (List.mem_singleton_self _)⟩

/-- C3 counterexample: sanitizing `rawBad` (which supplies
`currentStock = -5`) yields a product whose `currentStock` is still
`-5` — not finite-and-non-negative, refuting the claim that every
numeric field is clamped. -/
theorem sanitize_passes_negative_through :
    (sanitizeSkus 0 "2026-01-01" (some [some rawBad])).map (fun s => s.currentStock)
        = [JsNum.fin (-5)]
      ∧ JsNum.finNonneg (JsNum.fin (-5)) = false := by
  constructor
  · with_unfolding_all decide
  · with_unfolding_all decide

/-- C9: sanitation is idempotent — re-sanitizing the (re-injected)
output of the sanitizer reproduces it field for field, for every input,
including non-arrays and malformed entries. -/
theorem sanitize_idempotent (nowMs : ℚ) (todayStr : String)
    (items : Option (List (Option RawSku))) :
    sanitizeSkus nowMs todayStr
        (some ((sanitizeSkus nowMs todayStr items).map (fun s => some s.toRaw)))
      = sanitizeSkus nowMs todayStr items := by
  unfold sanitizeSkus
  rw [Option.getD_some, filterSome_map_some]
  exact sanitizeLoop_fix nowMs todayStr (filterSome (items.getD [])) 0 0
